import Mathlib

set_option linter.unusedVariables false
set_option maxRecDepth 4000

/-!
Formal model of the wg-scion on-path adversary simulation layer.

The Go sources modelled here are `conn/adversary.go` (the per-destination
adversary family: `SimpleAdversary`, `AllButOneAdversary`,
`AllButOneLossyAdversary`, `AllButOneAdvancedAdversary`, and the probing
helper `chooseSafePath`) and `conn/conn_linux.go` (`nativeBind.Send` and
`Fingerprint`).

Modelling conventions:
* A `snet.Path` is only ever inspected through its raw byte encoding
  (`path.Path().Raw`); it is modelled as that encoding.  The sha256 digest
  taken by `Fingerprint` is modelled as the raw encoding itself (an
  injective idealisation of the hash); all claims are stated in terms of
  `Fingerprint`, never in terms of hash internals.
* Go maps (`map[string]snet.Path` etc.) are modelled as association lists
  with the Go built-in operations `m[k]`, `m[k] = v` and `delete(m, k)`
  translated to `mapLookup`, `mapInsert` and `mapErase`.  Go maps never
  hold duplicate keys, so `mapErase` removing every binding of the key is
  equivalent to removing the single one.  A `nil` inner map is
  indistinguishable from an absent key everywhere in the source (both make
  `m[k] == nil` true and lookups in it fail), so "set to nil" is modelled
  as removal of the key.
* Go map iteration order is unspecified; the model iterates association
  lists front to back.  Every claim proved below is insensitive to this
  choice (the spec itself declares the remaining tie-breaks arbitrary).
* External collaborators (the sciond prober, the SCION socket, the default
  path resolver) are modelled as explicit input values (`ProbeEnv`, the
  `setDefaultPathErr`/`writeErr` arguments of `nativeBindSend`) holding
  the results the collaborator would return.
-/

namespace WgScion

/-- A SCION path as seen by the adversary code: the code only ever inspects
a path through its raw byte encoding `path.Path().Raw`. -/
structure SnetPath where
  raw : String
deriving DecidableEq

/-- `Fingerprint` (conn_linux.go): the sha256 digest of the path's raw byte
encoding, used as a map key and for path equality.  The digest is modelled
as the raw encoding itself (injective idealisation of sha256). -/
def Fingerprint (p : SnetPath) : String := p.raw

/-- `pathprobe.PathKey`: the probing library's own key for a path, likewise a
function of the raw byte encoding. -/
def PathKey (p : SnetPath) : String := p.raw

/-- Go map read `m[k]` on a `map[string]β` modelled as an association list. -/
def mapLookup {β : Type} : List (String × β) → String → Option β
  | [], _ => none
  | kv :: rest, k => if kv.1 = k then some kv.2 else mapLookup rest k

/-- Go map assignment `m[k] = v`. -/
def mapInsert {β : Type} : List (String × β) → String → β → List (String × β)
  | [], k, v => [(k, v)]
  | kv :: rest, k, v => if kv.1 = k then (k, v) :: rest else kv :: mapInsert rest k v

/-- Go `delete(m, k)`.  Every binding of `k` is removed; on lists without
duplicate keys (the only ones a Go map can denote) this is the removal of
the single binding. -/
def mapErase {β : Type} : List (String × β) → String → List (String × β)
  | [], _ => []
  | kv :: rest, k => if kv.1 = k then mapErase rest k else kv :: mapErase rest k

/-- The keys of an association list are pairwise distinct (what it means for
the list to denote a Go map). -/
def NodupKeys {β : Type} (m : List (String × β)) : Prop := (m.map Prod.fst).Nodup

/-- A path set handed to `UpdatePaths` is keyed by path fingerprint: every
key is the `Fingerprint` of the path it maps to. -/
def FingerprintKeyed (m : List (String × SnetPath)) : Prop :=
  ∀ kp ∈ m, kp.1 = Fingerprint kp.2

instance {β : Type} [DecidableEq β] (m : List (String × β)) : Decidable (NodupKeys m) :=
  List.nodupDecidable _

instance (m : List (String × SnetPath)) : Decidable (FingerprintKeyed m) :=
  List.decidableBAll _ m

/-- Constants from `conn/adversary.go` (taken over from
device/noise-protocol.go): `sha256.Size`. -/
def sha256Size : Nat := 32

/-- `poly1305.TagSize`. -/
def poly1305TagSize : Nat := 16

/-- `SealedFingerprintSize = sha256.Size + poly1305.TagSize`. -/
def SealedFingerprintSize : Nat := sha256Size + poly1305TagSize

/-- `MessageInitiationSize = 148`. -/
def MessageInitiationSize : Nat := 148

/-- `MessageResponseSize = 92`. -/
def MessageResponseSize : Nat := 92

/-- `MessageCookieReplySize = 64`. -/
def MessageCookieReplySize : Nat := 64

/-- `MessageInitiationMultSize = MessageInitiationSize + SealedFingerprintSize`. -/
def MessageInitiationMultSize : Nat := MessageInitiationSize + SealedFingerprintSize

/-- `isHandshakeMsgSize` (conn/adversary.go). -/
def isHandshakeMsgSize (n : Nat) : Bool :=
  n == MessageInitiationSize || n == MessageResponseSize ||
    n == MessageCookieReplySize || n == MessageInitiationMultSize

/-- Liveness classification of one path as returned by the external prober
(`pathprobe.Status.Status`); `unknown` also stands for the zero `Status{}`
value that a missing `statusMap` entry yields in Go. -/
inductive PathStatus
  | alive
  | timeout
  | unknown
deriving DecidableEq

/-- Results of the external probing collaborators used by `chooseSafePath`:
the outcome of `getProber(ia)`, and the outcome of `prober.GetStatuses`
(an error, or a classification map keyed by `pathprobe.PathKey`). -/
structure ProbeEnv where
  proberErr : Option String
  statusErr : Option String
  statusMap : List (String × PathStatus)
deriving DecidableEq

/-- `statusMap[key]` with Go's zero-value default for a missing key. -/
def statusOf (env : ProbeEnv) (p : SnetPath) : PathStatus :=
  (mapLookup env.statusMap (PathKey p)).getD .unknown

/-- The loop state of `chooseSafePath`'s classification loop: the six local
variables `aliveFp, alivePath, timeoutFp, timeoutPath` and the loop
variables `fp, path` (which after the loop hold the last iterated entry). -/
structure ScanAcc where
  aliveFp : String
  alivePath : Option SnetPath
  timeoutFp : String
  timeoutPath : Option SnetPath
  lastFp : String
  lastPath : Option SnetPath
deriving DecidableEq

/-- One iteration of `chooseSafePath`'s `for fp, path = range paths` loop. -/
def scanStep (env : ProbeEnv) (a : ScanAcc) (kp : String × SnetPath) : ScanAcc :=
  { aliveFp := if statusOf env kp.2 = .alive then kp.1 else a.aliveFp
    alivePath := if statusOf env kp.2 = .alive then some kp.2 else a.alivePath
    timeoutFp := if statusOf env kp.2 = .timeout then kp.1 else a.timeoutFp
    timeoutPath := if statusOf env kp.2 = .timeout then some kp.2 else a.timeoutPath
    lastFp := kp.1
    lastPath := some kp.2 }

/-- The whole classification loop, starting from the zero values of the six
locals (`""` for strings, `nil` for paths). -/
def scanPaths (env : ProbeEnv) (paths : List (String × SnetPath)) : ScanAcc :=
  paths.foldl (scanStep env) ⟨"", none, "", none, "", none⟩

/-- `chooseSafePath` (conn/adversary.go): pick a safe path for destination
`ia` out of `paths` by probing.  Returns the chosen fingerprint, the chosen
path (`none` models Go's `nil`) and the error.  The external probing results
are supplied through `env`; the `ia` argument only feeds `getProber` and is
therefore not needed beyond `env`. -/
def chooseSafePath (env : ProbeEnv) (paths : List (String × SnetPath)) :
    String × Option SnetPath × Option String :=
  match env.proberErr with
  | some e => ("", none, some e)
  | none =>
    if env.statusErr.isSome || env.statusMap.isEmpty then ("", none, env.statusErr)
    else
      match (scanPaths env paths).alivePath with
      | some ap => ((scanPaths env paths).aliveFp, some ap, none)
      | none =>
        match (scanPaths env paths).timeoutPath with
        | some tp => ((scanPaths env paths).timeoutFp, some tp, none)
        | none => ((scanPaths env paths).lastFp, (scanPaths env paths).lastPath, none)

/-- Whether `chooseSafePath`'s probing step fails: `getProber` errors, or
`GetStatuses` errors, or the classification map comes back empty. -/
def probeFails (env : ProbeEnv) : Prop :=
  env.proberErr ≠ none ∨ env.statusErr ≠ none ∨ env.statusMap = []

/-- The error `chooseSafePath` returns when its probing step fails (Go
propagates `getProber`'s error, else `GetStatuses`' error, which is `nil`
in the empty-classification case). -/
def probeFailErr (env : ProbeEnv) : Option String :=
  match env.proberErr with
  | some e => some e
  | none => env.statusErr

instance {α β : Type} [DecidableEq α] [DecidableEq β] : DecidableEq (Except α β) :=
  fun x y =>
    match x, y with
    | .error a, .error b =>
      if h : a = b then isTrue (h ▸ rfl) else isFalse (fun hh => h (by cases hh; rfl))
    | .error _, .ok _ => isFalse (fun hh => Except.noConfusion hh)
    | .ok _, .error _ => isFalse (fun hh => Except.noConfusion hh)
    | .ok a, .ok b =>
      if h : a = b then isTrue (h ▸ rfl) else isFalse (fun hh => h (by cases hh; rfl))

/-- The fields of a `*NativeEndpoint` (conn_linux.go) that the adversaries
read: the destination IA `nend.dst.IA.String()` and the outcome of
`nend.dst.GetPath()`. -/
structure NativeEndpoint where
  ia : String
  getPathResult : Except String SnetPath
deriving DecidableEq

/-- `SimpleAdversary` (conn/adversary.go): per-destination map from IA to the
first-seen (blocked) path. -/
structure SimpleAdversary where
  blockedPaths : List (String × SnetPath)
deriving DecidableEq

/-- `SimpleAdversary.Init`. -/
def SimpleAdversary.Init : SimpleAdversary := ⟨[]⟩

/-- `SimpleAdversary.getsDropped`: returns the drop decision, the error, and
the adversary state after the call. -/
def SimpleAdversary.getsDropped (adversary : SimpleAdversary) (nend : NativeEndpoint)
    (buffer : List Nat) : Bool × Option String × SimpleAdversary :=
  match nend.getPathResult with
  | .error e => (false, some e, adversary)
  | .ok path =>
    match mapLookup adversary.blockedPaths nend.ia with
    | none => (true, none, ⟨mapInsert adversary.blockedPaths nend.ia path⟩)
    | some bp => (Fingerprint path == Fingerprint bp, none, adversary)

/-- `AllButOneAdversary` (conn/adversary.go): per destination IA, the map of
blocked path fingerprints and the designated safe path. -/
structure AllButOneAdversary where
  blockedPathSets : List (String × List (String × SnetPath))
  safePaths : List (String × SnetPath)
deriving DecidableEq

/-- `AllButOneAdversary.Init`. -/
def AllButOneAdversary.Init : AllButOneAdversary := ⟨[], []⟩

/-- `AllButOneAdversary.getsDropped`: drop on a `GetPath` error, drop when the
destination has no record (fail closed), otherwise drop iff the current
path's fingerprint is in the destination's blocked set.  The state is
returned unchanged, as the Go method never writes it. -/
def AllButOneAdversary.getsDropped (adversary : AllButOneAdversary) (nend : NativeEndpoint)
    (buffer : List Nat) : Bool × Option String × AllButOneAdversary :=
  match nend.getPathResult with
  | .error e => (true, some e, adversary)
  | .ok path =>
    match mapLookup adversary.blockedPathSets nend.ia with
    | none => (true, none, adversary)
    | some blocked => ((mapLookup blocked (Fingerprint path)).isSome, none, adversary)

/-- The copy loop of `UpdatePaths` for a fresh destination (lines filling the
new inner map from `paths`). -/
def copyPaths (paths : List (String × SnetPath)) : List (String × SnetPath) :=
  paths.foldl (fun m kp => mapInsert m kp.1 kp.2) []

/-- The update loop of `UpdatePaths` for a destination with a prior record:
every entry of `paths` whose key differs from the old safe fingerprint is
added to the blocked map; an entry whose key matches becomes the new safe
path.  The accumulator is (blocked map so far, safe path found so far),
started at (old blocked map, `nil`). -/
def mergePaths (oldSafeFp : String) (paths : List (String × SnetPath))
    (acc : List (String × SnetPath) × Option SnetPath) :
    List (String × SnetPath) × Option SnetPath :=
  paths.foldl
    (fun a kp =>
      if kp.1 = oldSafeFp then (a.1, some kp.2) else (mapInsert a.1 kp.1 kp.2, a.2))
    acc

/-- `AllButOneAdversary.UpdatePaths` (conn/adversary.go).  `endpoint = none`
models a `nil` endpoint.  `env` supplies the external probing results used
by `chooseSafePath`.  Returns the new adversary state and the error.

In the branch for a destination with a prior record, Go computes
`Fingerprint(adversary.safePaths[ia])`, which would dereference `nil` if no
safe path were recorded; that situation is unreachable from `Init` (see
`UpdatePaths_wf` below), and the model uses `""` in its place. -/
def AllButOneAdversary.UpdatePaths (adversary : AllButOneAdversary) (env : ProbeEnv)
    (endpoint : Option NativeEndpoint) (paths : List (String × SnetPath)) :
    AllButOneAdversary × Option String :=
  match endpoint with
  | none => (adversary, some "Adversary received nil endpoint with path update")
  | some nend =>
    let ia := nend.ia
    match mapLookup adversary.blockedPathSets ia with
    | none =>
      let blocked := copyPaths paths
      match chooseSafePath env paths with
      | (safePathFp, some safePath, none) =>
        ({ blockedPathSets := mapInsert adversary.blockedPathSets ia (mapErase blocked safePathFp)
           safePaths := mapInsert adversary.safePaths ia safePath }, none)
      | (_, _, e) =>
        ({ adversary with blockedPathSets := mapErase adversary.blockedPathSets ia }, e)
    | some oldBlocked =>
      let oldSafeFp :=
        match mapLookup adversary.safePaths ia with
        | some sp => Fingerprint sp
        | none => ""
      let m := mergePaths oldSafeFp paths (oldBlocked, none)
      match m.2 with
      | some sp =>
        ({ blockedPathSets := mapInsert adversary.blockedPathSets ia m.1
           safePaths := mapInsert adversary.safePaths ia sp }, none)
      | none =>
        match chooseSafePath env paths with
        | (safePathFp, some safePath, none) =>
          ({ blockedPathSets := mapInsert adversary.blockedPathSets ia (mapErase m.1 safePathFp)
             safePaths := mapInsert adversary.safePaths ia safePath }, none)
        | (_, _, e) =>
          ({ blockedPathSets := mapErase adversary.blockedPathSets ia
             safePaths := mapErase adversary.safePaths ia }, e)

/-- The observable part of one `AllButOneAdversary.getsDropped` call on the
call data `c = (endpoint, buffer)`: the (drop, error) pair.  Well defined as
a function of the state because the method never writes the state. -/
def AllButOneAdversary.decision (s : AllButOneAdversary)
    (c : NativeEndpoint × List Nat) : Bool × Option String :=
  ((s.getsDropped c.1 c.2).1, (s.getsDropped c.1 c.2).2.1)

/-- `AllButOneLossyAdversary` (conn/adversary.go): the embedded
`AllButOneAdversary` plus the one-shot `hadLoss` flag. -/
structure AllButOneLossyAdversary where
  inner : AllButOneAdversary
  hadLoss : Bool
deriving DecidableEq

/-- `AllButOneLossyAdversary.getsDropped`: delegate, then convert the first
non-drop into a drop. -/
def AllButOneLossyAdversary.getsDropped (adversary : AllButOneLossyAdversary)
    (nend : NativeEndpoint) (buffer : List Nat) :
    Bool × Option String × AllButOneLossyAdversary :=
  let r := adversary.inner.getsDropped nend buffer
  if !r.1 && !adversary.hadLoss then (true, r.2.1, ⟨r.2.2, true⟩)
  else (r.1, r.2.1, ⟨r.2.2, adversary.hadLoss⟩)

/-- A sequence of `getsDropped` calls against an `AllButOneLossyAdversary`:
each call is (endpoint, buffer); returns the per-call results and the final
state. -/
def lossyRun (adversary : AllButOneLossyAdversary) :
    List (NativeEndpoint × List Nat) →
      List (Bool × Option String) × AllButOneLossyAdversary
  | [] => ([], adversary)
  | c :: cs =>
    (((adversary.getsDropped c.1 c.2).1, (adversary.getsDropped c.1 c.2).2.1) ::
        (lossyRun (adversary.getsDropped c.1 c.2).2.2 cs).1,
      (lossyRun (adversary.getsDropped c.1 c.2).2.2 cs).2)

/-- `AllButOneAdvancedAdversary` (conn/adversary.go): the embedded
`AllButOneAdversary`; handshake-sized buffers are always let through. -/
structure AllButOneAdvancedAdversary where
  inner : AllButOneAdversary
deriving DecidableEq

/-- `AllButOneAdvancedAdversary.getsDropped`. -/
def AllButOneAdvancedAdversary.getsDropped (adversary : AllButOneAdvancedAdversary)
    (nend : NativeEndpoint) (buffer : List Nat) :
    Bool × Option String × AllButOneAdvancedAdversary :=
  if isHandshakeMsgSize buffer.length then (false, none, adversary)
  else
    let r := adversary.inner.getsDropped nend buffer
    (r.1, r.2.1, ⟨r.2.2⟩)

/-- The drop/transmit logic of `nativeBind.Send` (conn_linux.go) after the
destination path is in place: consult the adversary's decision
`(drop, err)`; on `drop` return the error if non-nil, else success without
transmitting; otherwise transmit and return the socket write's error.
Result is (datagram transmitted?, error returned by `Send`). -/
def sendAfterPathSet (adversaryDecision : Bool × Option String)
    (writeErr : Option String) : Bool × Option String :=
  if adversaryDecision.1 then
    match adversaryDecision.2 with
    | some e => (false, some e)
    | none => (false, none)
  else (true, writeErr)

/-- `nativeBind.Send` (conn_linux.go): if the endpoint has no path, resolve a
default one (`setDefaultPathErr` is the outcome of
`appnet.SetDefaultPath`); a resolution error aborts the send.  Then apply
the adversary decision as in `sendAfterPathSet`.  Result is (datagram
transmitted?, error returned by `Send`). -/
def nativeBindSend (dstPathEmpty : Bool) (setDefaultPathErr : Option String)
    (adversaryDecision : Bool × Option String) (writeErr : Option String) :
    Bool × Option String :=
  if dstPathEmpty then
    match setDefaultPathErr with
    | some e => (false, some e)
    | none => sendAfterPathSet adversaryDecision writeErr
  else sendAfterPathSet adversaryDecision writeErr

/-- Well-formedness of an `AllButOneAdversary` state, maintained by the API
from `Init` on: a destination without a blocked-set record has no safe path
recorded, and a destination with a record has a recorded safe path whose
fingerprint is not in the blocked set. -/
def AllButOneWF (s : AllButOneAdversary) : Prop :=
  ∀ ia : String,
    (mapLookup s.blockedPathSets ia = none → mapLookup s.safePaths ia = none) ∧
    (∀ blocked, mapLookup s.blockedPathSets ia = some blocked →
      ∃ sp, mapLookup s.safePaths ia = some sp ∧ mapLookup blocked (Fingerprint sp) = none)

end WgScion

namespace WgScion

theorem mapLookup_insert_self {β : Type} (m : List (String × β)) (k : String) (v : β) :
    mapLookup (mapInsert m k v) k = some v := by
  induction m with
  | nil => simp [mapInsert, mapLookup]
  | cons kv rest ih =>
    by_cases h : kv.1 = k
    · simp [mapInsert, h, mapLookup]
    · simp [mapInsert, h, mapLookup, ih]

theorem mapLookup_insert_ne {β : Type} (m : List (String × β)) (k k' : String) (v : β)
    (h : k' ≠ k) : mapLookup (mapInsert m k v) k' = mapLookup m k' := by
  induction m with
  | nil => simp [mapInsert, mapLookup, Ne.symm h]
  | cons kv rest ih =>
    by_cases hk : kv.1 = k
    · subst hk
      simp [mapInsert, mapLookup, Ne.symm h]
    · by_cases hk' : kv.1 = k'
      · simp [mapInsert, hk, mapLookup, hk', h]
      · simp [mapInsert, hk, mapLookup, hk', ih]

theorem mapLookup_erase_self {β : Type} (m : List (String × β)) (k : String) :
    mapLookup (mapErase m k) k = none := by
  induction m with
  | nil => simp [mapErase, mapLookup]
  | cons kv rest ih =>
    by_cases h : kv.1 = k
    · simp [mapErase, h, ih]
    · simp [mapErase, h, mapLookup, ih]

theorem mapLookup_erase_ne {β : Type} (m : List (String × β)) (k k' : String)
    (h : k' ≠ k) : mapLookup (mapErase m k) k' = mapLookup m k' := by
  induction m with
  | nil => simp [mapErase, mapLookup]
  | cons kv rest ih =>
    by_cases hk : kv.1 = k
    · subst hk
      simp [mapErase, mapLookup, Ne.symm h, ih]
    · by_cases hk' : kv.1 = k'
      · simp [mapErase, hk, mapLookup, hk', h]
      · simp [mapErase, hk, mapLookup, hk', ih]

theorem nodupKeys_cons {β : Type} {kv : String × β} {rest : List (String × β)}
    (h : NodupKeys (kv :: rest)) :
    kv.1 ∉ rest.map Prod.fst ∧ NodupKeys rest := by
  rw [NodupKeys, List.map_cons, List.nodup_cons] at h
  exact h

theorem key_ne_of_not_mem_keys {β : Type} {k : String} {rest : List (String × β)}
    (h : k ∉ rest.map Prod.fst) : ∀ q ∈ rest, q.1 ≠ k := by
  intro q hq hqk
  exact h (hqk ▸ List.mem_map_of_mem Prod.fst hq)

theorem foldlInsert_lookup_not_mem {β : Type} (ps : List (String × β))
    (acc : List (String × β)) (k : String) (h : ∀ kp ∈ ps, kp.1 ≠ k) :
    mapLookup (ps.foldl (fun m kp => mapInsert m kp.1 kp.2) acc) k = mapLookup acc k := by
  induction ps generalizing acc with
  | nil => rfl
  | cons kp rest ih =>
    rw [List.foldl_cons, ih _ (fun q hq => h q (List.mem_cons_of_mem kp hq))]
    exact mapLookup_insert_ne acc kp.1 k kp.2 (Ne.symm (h kp (List.mem_cons_self kp rest)))

theorem foldlInsert_lookup_mem {β : Type} (ps : List (String × β))
    (acc : List (String × β)) (k : String) (v : β)
    (hnd : NodupKeys ps) (hmem : (k, v) ∈ ps) :
    mapLookup (ps.foldl (fun m kp => mapInsert m kp.1 kp.2) acc) k = some v := by
  induction ps generalizing acc with
  | nil => cases hmem
  | cons kp rest ih =>
    obtain ⟨hnotin, hnd'⟩ := nodupKeys_cons hnd
    rcases List.mem_cons.mp hmem with heq | hmem'
    · subst heq
      rw [List.foldl_cons,
        foldlInsert_lookup_not_mem rest _ k (key_ne_of_not_mem_keys hnotin)]
      exact mapLookup_insert_self acc k v
    · rw [List.foldl_cons]
      exact ih _ hnd' hmem'

theorem mergePaths_cons (sfp : String) (kp : String × SnetPath)
    (rest : List (String × SnetPath)) (acc : List (String × SnetPath) × Option SnetPath) :
    mergePaths sfp (kp :: rest) acc =
      mergePaths sfp rest
        (if kp.1 = sfp then (acc.1, some kp.2) else (mapInsert acc.1 kp.1 kp.2, acc.2)) := by
  rw [mergePaths, mergePaths, List.foldl_cons]

theorem mergePaths_fst_lookup_safeFp (sfp : String) (ps : List (String × SnetPath))
    (acc : List (String × SnetPath) × Option SnetPath) :
    mapLookup (mergePaths sfp ps acc).1 sfp = mapLookup acc.1 sfp := by
  induction ps generalizing acc with
  | nil => rfl
  | cons kp rest ih =>
    rw [mergePaths_cons]
    by_cases h : kp.1 = sfp
    · rw [if_pos h]
      exact ih _
    · rw [if_neg h]
      exact (ih _).trans (mapLookup_insert_ne acc.1 kp.1 sfp kp.2 (Ne.symm h))

theorem mergePaths_fst_lookup_not_mem (sfp : String) (ps : List (String × SnetPath))
    (acc : List (String × SnetPath) × Option SnetPath) (k : String)
    (h : ∀ kp ∈ ps, kp.1 ≠ k) :
    mapLookup (mergePaths sfp ps acc).1 k = mapLookup acc.1 k := by
  induction ps generalizing acc with
  | nil => rfl
  | cons kp rest ih =>
    rw [mergePaths_cons]
    have hrest : ∀ q ∈ rest, q.1 ≠ k := fun q hq => h q (List.mem_cons_of_mem kp hq)
    by_cases hk : kp.1 = sfp
    · rw [if_pos hk]
      exact ih _ hrest
    · rw [if_neg hk]
      exact (ih _ hrest).trans
        (mapLookup_insert_ne acc.1 kp.1 k kp.2 (Ne.symm (h kp (List.mem_cons_self kp rest))))

theorem mergePaths_fst_lookup_mem (sfp : String) (ps : List (String × SnetPath))
    (acc : List (String × SnetPath) × Option SnetPath) (k : String) (v : SnetPath)
    (hne : k ≠ sfp) (hnd : NodupKeys ps) (hmem : (k, v) ∈ ps) :
    mapLookup (mergePaths sfp ps acc).1 k = some v := by
  induction ps generalizing acc with
  | nil => cases hmem
  | cons kp rest ih =>
    obtain ⟨hnotin, hnd'⟩ := nodupKeys_cons hnd
    rw [mergePaths_cons]
    rcases List.mem_cons.mp hmem with heq | hmem'
    · subst heq
      rw [if_neg (show ¬(k, v).1 = sfp from hne)]
      exact (mergePaths_fst_lookup_not_mem sfp rest _ k
          (key_ne_of_not_mem_keys hnotin)).trans
        (mapLookup_insert_self acc.1 k v)
    · by_cases hk : kp.1 = sfp
      · rw [if_pos hk]
        exact ih _ hnd' hmem'
      · rw [if_neg hk]
        exact ih _ hnd' hmem'

theorem mergePaths_snd_of_not_mem (sfp : String) (ps : List (String × SnetPath))
    (acc : List (String × SnetPath) × Option SnetPath)
    (h : ∀ kp ∈ ps, kp.1 ≠ sfp) :
    (mergePaths sfp ps acc).2 = acc.2 := by
  induction ps generalizing acc with
  | nil => rfl
  | cons kp rest ih =>
    rw [mergePaths_cons, if_neg (h kp (List.mem_cons_self kp rest))]
    exact ih _ (fun q hq => h q (List.mem_cons_of_mem kp hq))

theorem mergePaths_snd_of_mem (sfp : String) (ps : List (String × SnetPath))
    (acc : List (String × SnetPath) × Option SnetPath) (p : SnetPath)
    (hnd : NodupKeys ps) (hmem : (sfp, p) ∈ ps) :
    (mergePaths sfp ps acc).2 = some p := by
  induction ps generalizing acc with
  | nil => cases hmem
  | cons kp rest ih =>
    obtain ⟨hnotin, hnd'⟩ := nodupKeys_cons hnd
    rw [mergePaths_cons]
    rcases List.mem_cons.mp hmem with heq | hmem'
    · subst heq
      rw [if_pos (show (sfp, p).1 = sfp from rfl)]
      rw [mergePaths_snd_of_not_mem sfp rest _ (key_ne_of_not_mem_keys hnotin)]
    · by_cases hk : kp.1 = sfp
      · rw [if_pos hk]
        exact ih _ hnd' hmem'
      · rw [if_neg hk]
        exact ih _ hnd' hmem'

theorem mergePaths_snd_mem (sfp : String) (ps : List (String × SnetPath))
    (acc : List (String × SnetPath) × Option SnetPath) (p : SnetPath)
    (h : (mergePaths sfp ps acc).2 = some p) :
    acc.2 = some p ∨ (sfp, p) ∈ ps := by
  induction ps generalizing acc with
  | nil => exact Or.inl h
  | cons kp rest ih =>
    rw [mergePaths_cons] at h
    by_cases hk : kp.1 = sfp
    · rw [if_pos hk] at h
      rcases ih _ h with h2 | h2
      · right
        have hkp : kp = (sfp, p) := by
          obtain ⟨k1, p1⟩ := kp
          simp only at hk h2
          rw [hk, Option.some_inj.mp h2]
        rw [← hkp]
        exact List.mem_cons_self kp rest
      · exact Or.inr (List.mem_cons_of_mem kp h2)
    · rw [if_neg hk] at h
      rcases ih _ h with h2 | h2
      · exact Or.inl h2
      · exact Or.inr (List.mem_cons_of_mem kp h2)

theorem scan_alive_spec (env : ProbeEnv) (ps : List (String × SnetPath)) (acc : ScanAcc) :
    ((ps.foldl (scanStep env) acc).aliveFp = acc.aliveFp ∧
      (ps.foldl (scanStep env) acc).alivePath = acc.alivePath ∧
      ∀ kp ∈ ps, statusOf env kp.2 ≠ .alive) ∨
    (∃ kp, kp ∈ ps ∧ statusOf env kp.2 = .alive ∧
      (ps.foldl (scanStep env) acc).aliveFp = kp.1 ∧
      (ps.foldl (scanStep env) acc).alivePath = some kp.2) := by
  induction ps generalizing acc with
  | nil =>
    left
    exact ⟨rfl, rfl, by simp⟩
  | cons kp rest ih =>
    rw [List.foldl_cons]
    rcases ih (scanStep env acc kp) with ⟨h1, h2, h3⟩ | ⟨q, hq, hs, h1, h2⟩
    · by_cases hkp : statusOf env kp.2 = .alive
      · right
        refine ⟨kp, List.mem_cons_self kp rest, hkp, ?_, ?_⟩
        · rw [h1]
          simp [scanStep, hkp]
        · rw [h2]
          simp [scanStep, hkp]
      · left
        refine ⟨?_, ?_, ?_⟩
        · rw [h1]
          simp [scanStep, hkp]
        · rw [h2]
          simp [scanStep, hkp]
        · intro q hq
          rcases List.mem_cons.mp hq with hq' | hq'
          · rw [hq']
            exact hkp
          · exact h3 q hq'
    · exact Or.inr ⟨q, List.mem_cons_of_mem kp hq, hs, h1, h2⟩

theorem scan_timeout_spec (env : ProbeEnv) (ps : List (String × SnetPath)) (acc : ScanAcc) :
    ((ps.foldl (scanStep env) acc).timeoutFp = acc.timeoutFp ∧
      (ps.foldl (scanStep env) acc).timeoutPath = acc.timeoutPath ∧
      ∀ kp ∈ ps, statusOf env kp.2 ≠ .timeout) ∨
    (∃ kp, kp ∈ ps ∧ statusOf env kp.2 = .timeout ∧
      (ps.foldl (scanStep env) acc).timeoutFp = kp.1 ∧
      (ps.foldl (scanStep env) acc).timeoutPath = some kp.2) := by
  induction ps generalizing acc with
  | nil =>
    left
    exact ⟨rfl, rfl, by simp⟩
  | cons kp rest ih =>
    rw [List.foldl_cons]
    rcases ih (scanStep env acc kp) with ⟨h1, h2, h3⟩ | ⟨q, hq, hs, h1, h2⟩
    · by_cases hkp : statusOf env kp.2 = .timeout
      · right
        refine ⟨kp, List.mem_cons_self kp rest, hkp, ?_, ?_⟩
        · rw [h1]
          simp [scanStep, hkp]
        · rw [h2]
          simp [scanStep, hkp]
      · left
        refine ⟨?_, ?_, ?_⟩
        · rw [h1]
          simp [scanStep, hkp]
        · rw [h2]
          simp [scanStep, hkp]
        · intro q hq
          rcases List.mem_cons.mp hq with hq' | hq'
          · rw [hq']
            exact hkp
          · exact h3 q hq'
    · exact Or.inr ⟨q, List.mem_cons_of_mem kp hq, hs, h1, h2⟩

theorem scan_last_spec (env : ProbeEnv) (ps : List (String × SnetPath)) (acc : ScanAcc) :
    (ps = [] ∧ (ps.foldl (scanStep env) acc).lastFp = acc.lastFp ∧
      (ps.foldl (scanStep env) acc).lastPath = acc.lastPath) ∨
    (∃ kp, kp ∈ ps ∧ (ps.foldl (scanStep env) acc).lastFp = kp.1 ∧
      (ps.foldl (scanStep env) acc).lastPath = some kp.2) := by
  induction ps generalizing acc with
  | nil => exact Or.inl ⟨rfl, rfl, rfl⟩
  | cons kp rest ih =>
    rw [List.foldl_cons]
    rcases ih (scanStep env acc kp) with ⟨h0, h1, h2⟩ | ⟨q, hq, h1, h2⟩
    · right
      refine ⟨kp, List.mem_cons_self kp rest, ?_, ?_⟩
      · rw [h1]
        rfl
      · rw [h2]
        rfl
    · exact Or.inr ⟨q, List.mem_cons_of_mem kp hq, h1, h2⟩

theorem chooseSafePath_of_fail (env : ProbeEnv) (ps : List (String × SnetPath))
    (h : probeFails env) :
    chooseSafePath env ps = ("", none, probeFailErr env) := by
  rcases hp : env.proberErr with _ | e
  · rcases h with h | h | h
    · exact absurd hp h
    · have hs : env.statusErr.isSome = true := Option.ne_none_iff_isSome.mp h
      simp [chooseSafePath, hp, hs, probeFailErr]
    · simp [chooseSafePath, hp, h, probeFailErr]
  · simp [chooseSafePath, hp, probeFailErr]

theorem scanPaths_alive_spec (env : ProbeEnv) (ps : List (String × SnetPath)) :
    ((scanPaths env ps).aliveFp = "" ∧ (scanPaths env ps).alivePath = none ∧
      ∀ kp ∈ ps, statusOf env kp.2 ≠ .alive) ∨
    (∃ kp, kp ∈ ps ∧ statusOf env kp.2 = .alive ∧
      (scanPaths env ps).aliveFp = kp.1 ∧ (scanPaths env ps).alivePath = some kp.2) :=
  scan_alive_spec env ps ⟨"", none, "", none, "", none⟩

theorem scanPaths_timeout_spec (env : ProbeEnv) (ps : List (String × SnetPath)) :
    ((scanPaths env ps).timeoutFp = "" ∧ (scanPaths env ps).timeoutPath = none ∧
      ∀ kp ∈ ps, statusOf env kp.2 ≠ .timeout) ∨
    (∃ kp, kp ∈ ps ∧ statusOf env kp.2 = .timeout ∧
      (scanPaths env ps).timeoutFp = kp.1 ∧ (scanPaths env ps).timeoutPath = some kp.2) :=
  scan_timeout_spec env ps ⟨"", none, "", none, "", none⟩

theorem scanPaths_last_spec (env : ProbeEnv) (ps : List (String × SnetPath)) :
    (ps = [] ∧ (scanPaths env ps).lastFp = "" ∧ (scanPaths env ps).lastPath = none) ∨
    (∃ kp, kp ∈ ps ∧ (scanPaths env ps).lastFp = kp.1 ∧
      (scanPaths env ps).lastPath = some kp.2) :=
  scan_last_spec env ps ⟨"", none, "", none, "", none⟩

theorem chooseSafePath_mem (env : ProbeEnv) (ps : List (String × SnetPath))
    (fp : String) (p : SnetPath)
    (h : chooseSafePath env ps = (fp, some p, none)) :
    (fp, p) ∈ ps := by
  rcases hp : env.proberErr with _ | e
  · simp only [chooseSafePath, hp] at h
    by_cases hcond : (env.statusErr.isSome || env.statusMap.isEmpty) = true
    · rw [if_pos hcond] at h
      simp only [Prod.mk.injEq] at h
      exact absurd h.2.1 (by simp)
    · rw [if_neg hcond] at h
      rcases ha : (scanPaths env ps).alivePath with _ | ap
      · rcases ht : (scanPaths env ps).timeoutPath with _ | tp
        · rw [ha, ht] at h
          simp only [Prod.mk.injEq] at h
          obtain ⟨hfp, hpp, -⟩ := h
          rcases scanPaths_last_spec env ps with ⟨h0, h1, h2⟩ | ⟨q, hq, h1, h2⟩
          · rw [h2] at hpp
            cases hpp
          · obtain ⟨q1, q2⟩ := q
            have e1 : fp = q1 := hfp.symm.trans h1
            have e2 : p = q2 := Option.some_inj.mp (hpp.symm.trans h2)
            rw [e1, e2]
            exact hq
        · rw [ha, ht] at h
          simp only [Prod.mk.injEq] at h
          obtain ⟨hfp, hpp, -⟩ := h
          rcases scanPaths_timeout_spec env ps with ⟨h1, h2, h3⟩ | ⟨q, hq, hs, h1, h2⟩
          · rw [ht] at h2
            cases h2
          · obtain ⟨q1, q2⟩ := q
            have e1 : fp = q1 := hfp.symm.trans h1
            have e2 : p = q2 := Option.some_inj.mp ((hpp ▸ ht).symm.trans h2)
            rw [e1, e2]
            exact hq
      · rw [ha] at h
        simp only [Prod.mk.injEq] at h
        obtain ⟨hfp, hpp, -⟩ := h
        rcases scanPaths_alive_spec env ps with ⟨h1, h2, h3⟩ | ⟨q, hq, hs, h1, h2⟩
        · rw [ha] at h2
          cases h2
        · obtain ⟨q1, q2⟩ := q
          have e1 : fp = q1 := hfp.symm.trans h1
          have e2 : p = q2 := Option.some_inj.mp ((hpp ▸ ha).symm.trans h2)
          rw [e1, e2]
          exact hq
  · simp only [chooseSafePath, hp, Prod.mk.injEq] at h
    exact absurd h.2.1 (by simp)

theorem updatePaths_fresh_success (s : AllButOneAdversary) (env : ProbeEnv)
    (nend : NativeEndpoint) (paths : List (String × SnetPath)) (fp : String) (p : SnetPath)
    (hrec : mapLookup s.blockedPathSets nend.ia = none)
    (hcs : chooseSafePath env paths = (fp, some p, none)) :
    s.UpdatePaths env (some nend) paths =
      ({ blockedPathSets :=
           mapInsert s.blockedPathSets nend.ia (mapErase (copyPaths paths) fp)
         safePaths := mapInsert s.safePaths nend.ia p }, none) := by
  simp only [AllButOneAdversary.UpdatePaths, hrec, hcs]

theorem updatePaths_fresh_fail (s : AllButOneAdversary) (env : ProbeEnv)
    (nend : NativeEndpoint) (paths : List (String × SnetPath)) (fp : String)
    (op : Option SnetPath) (oe : Option String)
    (hrec : mapLookup s.blockedPathSets nend.ia = none)
    (hcs : chooseSafePath env paths = (fp, op, oe))
    (hfail : op = none ∨ oe ≠ none) :
    s.UpdatePaths env (some nend) paths =
      ({ s with blockedPathSets := mapErase s.blockedPathSets nend.ia }, oe) := by
  rcases op with _ | p0
  · simp only [AllButOneAdversary.UpdatePaths, hrec, hcs]
  · rcases oe with _ | e0
    · rcases hfail with h | h
      · cases h
      · exact absurd rfl h
    · simp only [AllButOneAdversary.UpdatePaths, hrec, hcs]

theorem updatePaths_prior_continuity (s : AllButOneAdversary) (env : ProbeEnv)
    (nend : NativeEndpoint) (paths : List (String × SnetPath))
    (ob mb : List (String × SnetPath)) (osp sp : SnetPath)
    (hrec : mapLookup s.blockedPathSets nend.ia = some ob)
    (hsafe : mapLookup s.safePaths nend.ia = some osp)
    (hm : mergePaths (Fingerprint osp) paths (ob, none) = (mb, some sp)) :
    s.UpdatePaths env (some nend) paths =
      ({ blockedPathSets := mapInsert s.blockedPathSets nend.ia mb
         safePaths := mapInsert s.safePaths nend.ia sp }, none) := by
  simp only [AllButOneAdversary.UpdatePaths, hrec, hsafe, hm]

theorem updatePaths_prior_reprobe_success (s : AllButOneAdversary) (env : ProbeEnv)
    (nend : NativeEndpoint) (paths : List (String × SnetPath))
    (ob mb : List (String × SnetPath)) (osp : SnetPath) (fp : String) (p : SnetPath)
    (hrec : mapLookup s.blockedPathSets nend.ia = some ob)
    (hsafe : mapLookup s.safePaths nend.ia = some osp)
    (hm : mergePaths (Fingerprint osp) paths (ob, none) = (mb, none))
    (hcs : chooseSafePath env paths = (fp, some p, none)) :
    s.UpdatePaths env (some nend) paths =
      ({ blockedPathSets := mapInsert s.blockedPathSets nend.ia (mapErase mb fp)
         safePaths := mapInsert s.safePaths nend.ia p }, none) := by
  simp only [AllButOneAdversary.UpdatePaths, hrec, hsafe, hm, hcs]

theorem updatePaths_prior_reprobe_fail (s : AllButOneAdversary) (env : ProbeEnv)
    (nend : NativeEndpoint) (paths : List (String × SnetPath))
    (ob mb : List (String × SnetPath)) (osp : SnetPath) (fp : String)
    (op : Option SnetPath) (oe : Option String)
    (hrec : mapLookup s.blockedPathSets nend.ia = some ob)
    (hsafe : mapLookup s.safePaths nend.ia = some osp)
    (hm : mergePaths (Fingerprint osp) paths (ob, none) = (mb, none))
    (hcs : chooseSafePath env paths = (fp, op, oe))
    (hfail : op = none ∨ oe ≠ none) :
    s.UpdatePaths env (some nend) paths =
      ({ blockedPathSets := mapErase s.blockedPathSets nend.ia
         safePaths := mapErase s.safePaths nend.ia }, oe) := by
  rcases op with _ | p0
  · simp only [AllButOneAdversary.UpdatePaths, hrec, hsafe, hm, hcs]
  · rcases oe with _ | e0
    · rcases hfail with h | h
      · cases h
      · exact absurd rfl h
    · simp only [AllButOneAdversary.UpdatePaths, hrec, hsafe, hm, hcs]

theorem allButOneWF_init : AllButOneWF AllButOneAdversary.Init := by
  intro ia
  constructor
  · intro _
    rfl
  · intro b hb
    exact absurd hb (by simp [AllButOneAdversary.Init, mapLookup])

theorem wf_insert (s : AllButOneAdversary) (ia : String)
    (blocked : List (String × SnetPath)) (sp : SnetPath)
    (hwf : AllButOneWF s) (hsp : mapLookup blocked (Fingerprint sp) = none) :
    AllButOneWF ⟨mapInsert s.blockedPathSets ia blocked, mapInsert s.safePaths ia sp⟩ := by
  intro ia'
  by_cases hia : ia' = ia
  · subst hia
    constructor
    · intro hb
      rw [mapLookup_insert_self] at hb
      cases hb
    · intro b hb
      rw [mapLookup_insert_self] at hb
      refine ⟨sp, mapLookup_insert_self _ _ _, ?_⟩
      rw [← Option.some_inj.mp hb]
      exact hsp
  · constructor
    · intro hb
      rw [mapLookup_insert_ne _ _ _ _ hia] at hb
      rw [mapLookup_insert_ne _ _ _ _ hia]
      exact (hwf ia').1 hb
    · intro b hb
      rw [mapLookup_insert_ne _ _ _ _ hia] at hb
      obtain ⟨sp', h1, h2⟩ := (hwf ia').2 b hb
      refine ⟨sp', ?_, h2⟩
      rw [mapLookup_insert_ne _ _ _ _ hia]
      exact h1

theorem wf_erase_both (s : AllButOneAdversary) (ia : String) (hwf : AllButOneWF s) :
    AllButOneWF ⟨mapErase s.blockedPathSets ia, mapErase s.safePaths ia⟩ := by
  intro ia'
  by_cases hia : ia' = ia
  · subst hia
    constructor
    · intro _
      exact mapLookup_erase_self _ _
    · intro b hb
      rw [mapLookup_erase_self] at hb
      cases hb
  · constructor
    · intro hb
      rw [mapLookup_erase_ne _ _ _ hia] at hb
      rw [mapLookup_erase_ne _ _ _ hia]
      exact (hwf ia').1 hb
    · intro b hb
      rw [mapLookup_erase_ne _ _ _ hia] at hb
      obtain ⟨sp', h1, h2⟩ := (hwf ia').2 b hb
      refine ⟨sp', ?_, h2⟩
      rw [mapLookup_erase_ne _ _ _ hia]
      exact h1

theorem wf_erase_blocked (s : AllButOneAdversary) (ia : String) (hwf : AllButOneWF s)
    (hsafe : mapLookup s.safePaths ia = none) :
    AllButOneWF { s with blockedPathSets := mapErase s.blockedPathSets ia } := by
  intro ia'
  by_cases hia : ia' = ia
  · subst hia
    constructor
    · intro _
      exact hsafe
    · intro b hb
      rw [mapLookup_erase_self] at hb
      cases hb
  · constructor
    · intro hb
      rw [mapLookup_erase_ne _ _ _ hia] at hb
      exact (hwf ia').1 hb
    · intro b hb
      rw [mapLookup_erase_ne _ _ _ hia] at hb
      exact (hwf ia').2 b hb

theorem copyPaths_lookup_mem (paths : List (String × SnetPath)) (k : String) (v : SnetPath)
    (hnd : NodupKeys paths) (hmem : (k, v) ∈ paths) :
    mapLookup (copyPaths paths) k = some v :=
  foldlInsert_lookup_mem paths [] k v hnd hmem

/-- `AllButOneAdversary.UpdatePaths` preserves well-formedness, provided the
path set denotes a map (distinct keys) keyed by fingerprints. -/
theorem updatePaths_wf (s : AllButOneAdversary) (env : ProbeEnv)
    (endpoint : Option NativeEndpoint) (paths : List (String × SnetPath))
    (hwf : AllButOneWF s) (hnd : NodupKeys paths) (hfk : FingerprintKeyed paths) :
    AllButOneWF (s.UpdatePaths env endpoint paths).1 := by
  cases endpoint with
  | none => exact hwf
  | some nend =>
    rcases hrec : mapLookup s.blockedPathSets nend.ia with _ | ob
    · rcases hcs : chooseSafePath env paths with ⟨fp, op, oe⟩
      rcases op with _ | p
      · rw [updatePaths_fresh_fail s env nend paths fp none oe hrec hcs (Or.inl rfl)]
        exact wf_erase_blocked s nend.ia hwf ((hwf nend.ia).1 hrec)
      · rcases oe with _ | e
        · rw [updatePaths_fresh_success s env nend paths fp p hrec hcs]
          have hmem : (fp, p) ∈ paths := chooseSafePath_mem env paths fp p hcs
          have hfpp : fp = Fingerprint p := hfk (fp, p) hmem
          refine wf_insert s nend.ia _ p hwf ?_
          rw [← hfpp]
          exact mapLookup_erase_self _ _
        · rw [updatePaths_fresh_fail s env nend paths fp (some p) (some e) hrec hcs
            (Or.inr (by simp))]
          exact wf_erase_blocked s nend.ia hwf ((hwf nend.ia).1 hrec)
    · obtain ⟨osp, hsafe, hnb⟩ := (hwf nend.ia).2 ob hrec
      rcases hm : mergePaths (Fingerprint osp) paths (ob, none) with ⟨mb, msp⟩
      rcases msp with _ | sp
      · rcases hcs : chooseSafePath env paths with ⟨fp, op, oe⟩
        rcases op with _ | p
        · rw [updatePaths_prior_reprobe_fail s env nend paths ob mb osp fp none oe hrec hsafe
            hm hcs (Or.inl rfl)]
          exact wf_erase_both s nend.ia hwf
        · rcases oe with _ | e
          · rw [updatePaths_prior_reprobe_success s env nend paths ob mb osp fp p hrec hsafe
              hm hcs]
            have hmem : (fp, p) ∈ paths := chooseSafePath_mem env paths fp p hcs
            have hfpp : fp = Fingerprint p := hfk (fp, p) hmem
            refine wf_insert s nend.ia _ p hwf ?_
            rw [← hfpp]
            exact mapLookup_erase_self _ _
          · rw [updatePaths_prior_reprobe_fail s env nend paths ob mb osp fp (some p) (some e)
              hrec hsafe hm hcs (Or.inr (by simp))]
            exact wf_erase_both s nend.ia hwf
      · rw [updatePaths_prior_continuity s env nend paths ob mb osp sp hrec hsafe hm]
        have hmem : (Fingerprint osp, sp) ∈ paths := by
          rcases mergePaths_snd_mem (Fingerprint osp) paths (ob, none) sp
              (by rw [hm]) with h2 | h2
          · cases h2
          · exact h2
        have hfpp : Fingerprint osp = Fingerprint sp := hfk (Fingerprint osp, sp) hmem
        refine wf_insert s nend.ia mb sp hwf ?_
        have hmb : mapLookup mb (Fingerprint osp) = mapLookup ob (Fingerprint osp) := by
          have := mergePaths_fst_lookup_safeFp (Fingerprint osp) paths (ob, none)
          rw [hm] at this
          exact this
        rw [← hfpp, hmb]
        exact hnb

/-- `AllButOneAdversary.getsDropped` never writes the adversary state. -/
theorem allButOne_getsDropped_state (s : AllButOneAdversary) (nend : NativeEndpoint)
    (buffer : List Nat) : (s.getsDropped nend buffer).2.2 = s := by
  rcases h : nend.getPathResult with e | p
  · simp [AllButOneAdversary.getsDropped, h]
  · rcases hb : mapLookup s.blockedPathSets nend.ia with _ | b <;>
      simp [AllButOneAdversary.getsDropped, h, hb]

/-- With no record for the destination, `AllButOneAdversary.getsDropped`
always drops (whether or not `GetPath` succeeds). -/
theorem allButOne_getsDropped_no_record (s : AllButOneAdversary) (nend : NativeEndpoint)
    (buffer : List Nat) (hrec : mapLookup s.blockedPathSets nend.ia = none) :
    (s.getsDropped nend buffer).1 = true := by
  rcases h : nend.getPathResult with e | p
  · simp [AllButOneAdversary.getsDropped, h]
  · simp [AllButOneAdversary.getsDropped, h, hrec]

theorem lossy_getsDropped_eq (s : AllButOneLossyAdversary) (nend : NativeEndpoint)
    (buffer : List Nat) :
    s.getsDropped nend buffer =
      if !(s.inner.decision (nend, buffer)).1 && !s.hadLoss then
        (true, (s.inner.decision (nend, buffer)).2, ⟨s.inner, true⟩)
      else ((s.inner.decision (nend, buffer)).1, (s.inner.decision (nend, buffer)).2,
        ⟨s.inner, s.hadLoss⟩) := by
  rw [AllButOneLossyAdversary.getsDropped, AllButOneAdversary.decision,
    allButOne_getsDropped_state]

theorem lossyRun_hadLoss (inner : AllButOneAdversary)
    (cs : List (NativeEndpoint × List Nat)) :
    lossyRun ⟨inner, true⟩ cs =
      (cs.map (fun c => inner.decision c), ⟨inner, true⟩) := by
  induction cs with
  | nil => rfl
  | cons c cs ih =>
    obtain ⟨c1, c2⟩ := c
    rw [lossyRun, lossy_getsDropped_eq]
    simp only [Bool.not_true, Bool.and_false]
    rw [if_neg Bool.false_ne_true, ih]
    rfl

theorem lossyRun_cons_drop (inner : AllButOneAdversary)
    (cs : List (NativeEndpoint × List Nat)) (c : NativeEndpoint × List Nat)
    (hc : (inner.decision c).1 = true) :
    lossyRun ⟨inner, false⟩ (c :: cs) =
      (((inner.decision c).1, (inner.decision c).2) :: (lossyRun ⟨inner, false⟩ cs).1,
        (lossyRun ⟨inner, false⟩ cs).2) := by
  obtain ⟨c1, c2⟩ := c
  rw [lossyRun, lossy_getsDropped_eq, hc]
  simp only [Bool.not_true, Bool.false_and]
  rw [if_neg Bool.false_ne_true]

theorem lossyRun_cons_allow (inner : AllButOneAdversary)
    (cs : List (NativeEndpoint × List Nat)) (c : NativeEndpoint × List Nat)
    (hc : (inner.decision c).1 = false) :
    lossyRun ⟨inner, false⟩ (c :: cs) =
      ((true, (inner.decision c).2) :: cs.map (fun c2 => inner.decision c2),
        ⟨inner, true⟩) := by
  obtain ⟨c1, c2⟩ := c
  rw [lossyRun, lossy_getsDropped_eq, hc]
  simp only [Bool.not_false, Bool.true_and]
  rw [if_pos trivial, lossyRun_hadLoss]

/-- C10: for every endpoint whose current path cannot be retrieved
(`GetPath` returns an error), `AllButOneAdversary.getsDropped` returns
drop = true together with that error, so the packet is never reported
deliverable when the adversary cannot determine its path; the blocking
state is unchanged by such a call. -/
theorem allButOne_getsDropped_getPath_error (s : AllButOneAdversary)
    (nend : NativeEndpoint) (buffer : List Nat) (e : String)
    (h : nend.getPathResult = .error e) :
    s.getsDropped nend buffer = (true, some e, s) := by
  simp [AllButOneAdversary.getsDropped, h]

/-- Witness for C10 at a concrete endpoint with a failing `GetPath`. -/
theorem allButOne_getsDropped_getPath_error_witness :
    AllButOneAdversary.Init.getsDropped ⟨"1-ff00:0:1", .error "no path"⟩ [] =
      (true, some "no path", AllButOneAdversary.Init) :=
  allButOne_getsDropped_getPath_error AllButOneAdversary.Init
    ⟨"1-ff00:0:1", .error "no path"⟩ [] "no path" rfl

/-- C8: a buffer whose length equals one of the configured handshake-message
sizes is never dropped by `AllButOneAdvancedAdversary.getsDropped`, whatever
the blocking state and the endpoint's path; every other buffer gets exactly
the wrapped `AllButOneAdversary`'s result. -/
theorem allButOneAdvanced_handshake_exemption (s : AllButOneAdvancedAdversary)
    (nend : NativeEndpoint) (buffer : List Nat) :
    (isHandshakeMsgSize buffer.length = true →
      s.getsDropped nend buffer = (false, none, s)) ∧
    (isHandshakeMsgSize buffer.length = false →
      s.getsDropped nend buffer =
        ((s.inner.getsDropped nend buffer).1, (s.inner.getsDropped nend buffer).2.1,
          ⟨(s.inner.getsDropped nend buffer).2.2⟩)) ∧
    (∀ n, isHandshakeMsgSize n = true ↔
      n = MessageInitiationSize ∨ n = MessageResponseSize ∨
        n = MessageCookieReplySize ∨ n = MessageInitiationMultSize) := by
  refine ⟨?_, ?_, ?_⟩
  · intro h
    simp [AllButOneAdvancedAdversary.getsDropped, h]
  · intro h
    simp [AllButOneAdvancedAdversary.getsDropped, h]
  · intro n
    simp [isHandshakeMsgSize, or_assoc]

/-- Witness for C8: a 148-byte buffer (initiation size) passes even though
the destination has no record (which would otherwise drop); a 5-byte buffer
delegates to the wrapped adversary, which drops. -/
theorem allButOneAdvanced_handshake_exemption_witness :
    (AllButOneAdvancedAdversary.mk AllButOneAdversary.Init).getsDropped
        ⟨"d", .ok ⟨"A"⟩⟩ (List.replicate 148 0) =
      (false, none, ⟨AllButOneAdversary.Init⟩) ∧
    (AllButOneAdvancedAdversary.mk AllButOneAdversary.Init).getsDropped
        ⟨"d", .ok ⟨"A"⟩⟩ (List.replicate 5 0) =
      (true, none, ⟨AllButOneAdversary.Init⟩) := by
  constructor
  · exact (allButOneAdvanced_handshake_exemption ⟨AllButOneAdversary.Init⟩
      ⟨"d", .ok ⟨"A"⟩⟩ (List.replicate 148 0)).1 (by decide)
  · have h := (allButOneAdvanced_handshake_exemption ⟨AllButOneAdversary.Init⟩
      ⟨"d", .ok ⟨"A"⟩⟩ (List.replicate 5 0)).2.1 (by decide)
    rw [h]
    decide

/-- C5: for `SimpleAdversary.getsDropped` (with the endpoint's current path
retrievable), the first call for a destination records its current path as
blocked and drops; every later call for that destination drops iff the
current path's fingerprint equals the recorded one, and leaves the record
unchanged. -/
theorem simpleAdversary_first_path_block (s : SimpleAdversary) (nend : NativeEndpoint)
    (buffer : List Nat) (p : SnetPath) (hget : nend.getPathResult = .ok p) :
    (mapLookup s.blockedPaths nend.ia = none →
      s.getsDropped nend buffer = (true, none, ⟨mapInsert s.blockedPaths nend.ia p⟩)) ∧
    (∀ p0, mapLookup s.blockedPaths nend.ia = some p0 →
      s.getsDropped nend buffer = (Fingerprint p == Fingerprint p0, none, s)) := by
  constructor
  · intro h
    simp [SimpleAdversary.getsDropped, hget, h]
  · intro p0 h
    simp [SimpleAdversary.getsDropped, hget, h]

/-- Witness for C5: first call for destination `"d"` records path `A` and
drops; a later call over path `B` is let through, one over `A` is dropped. -/
theorem simpleAdversary_first_path_block_witness :
    SimpleAdversary.Init.getsDropped ⟨"d", .ok ⟨"A"⟩⟩ [] =
      (true, none, ⟨[("d", ⟨"A"⟩)]⟩) ∧
    (SimpleAdversary.mk [("d", ⟨"A"⟩)]).getsDropped ⟨"d", .ok ⟨"B"⟩⟩ [] =
      (false, none, ⟨[("d", ⟨"A"⟩)]⟩) ∧
    (SimpleAdversary.mk [("d", ⟨"A"⟩)]).getsDropped ⟨"d", .ok ⟨"A"⟩⟩ [] =
      (true, none, ⟨[("d", ⟨"A"⟩)]⟩) := by
  refine ⟨?_, ?_, ?_⟩
  · exact (simpleAdversary_first_path_block SimpleAdversary.Init
      ⟨"d", .ok ⟨"A"⟩⟩ [] ⟨"A"⟩ rfl).1 (by decide)
  · have h := (simpleAdversary_first_path_block (SimpleAdversary.mk [("d", ⟨"A"⟩)])
      ⟨"d", .ok ⟨"B"⟩⟩ [] ⟨"B"⟩ rfl).2 ⟨"A"⟩ (by decide)
    rw [h]
    decide
  · have h := (simpleAdversary_first_path_block (SimpleAdversary.mk [("d", ⟨"A"⟩)])
      ⟨"d", .ok ⟨"A"⟩⟩ [] ⟨"A"⟩ rfl).2 ⟨"A"⟩ (by decide)
    rw [h]
    decide

/-- C1 (counterexample): the claim "whenever the adversary's decide returns a
non-nil error (whether or not drop is true), send returns that error and the
datagram is not transmitted" is false on the code: with decision
`(drop = false, err = "adversary error")` and a clear path, `Send` transmits
the datagram and returns `nil` — the adversary's error is ignored because the
error is only consulted inside the `if drop` branch. -/
theorem send_error_without_drop_counterexample :
    nativeBindSend false none (false, some "adversary error") none = (true, none) ∧
    ¬((nativeBindSend false none (false, some "adversary error") none).1 = false ∧
      (nativeBindSend false none (false, some "adversary error") none).2 =
        some "adversary error") := by
  decide

/-- C1 (amended): provided path resolution does not abort the send, the
adversary decision is applied as follows: `(true, nil)` silently discards
the datagram and `Send` returns success; `(true, err)` returns that error
without transmitting; and for `(false, err?)` the datagram is transmitted
regardless of the (ignored) error value, `Send` returning the socket
write's result. -/
theorem send_adversary_decision_semantics (dstPathEmpty : Bool)
    (setDefaultPathErr : Option String) (err writeErr : Option String)
    (hpath : dstPathEmpty = false ∨ setDefaultPathErr = none) :
    nativeBindSend dstPathEmpty setDefaultPathErr (true, none) writeErr =
      (false, none) ∧
    (∀ e, nativeBindSend dstPathEmpty setDefaultPathErr (true, some e) writeErr =
      (false, some e)) ∧
    nativeBindSend dstPathEmpty setDefaultPathErr (false, err) writeErr =
      (true, writeErr) := by
  have hred : ∀ d w, nativeBindSend dstPathEmpty setDefaultPathErr d w =
      sendAfterPathSet d w := by
    intro d w
    cases dstPathEmpty with
    | false => simp [nativeBindSend]
    | true =>
      rcases hpath with h | h
      · cases h
      · simp [nativeBindSend, h]
  refine ⟨?_, ?_, ?_⟩
  · rw [hred]
    simp [sendAfterPathSet]
  · intro e
    rw [hred]
    simp [sendAfterPathSet]
  · rw [hred]
    simp [sendAfterPathSet]

/-- Witness for the amended C1 at concrete inputs. -/
theorem send_adversary_decision_semantics_witness :
    nativeBindSend false none (true, none) (some "w") = (false, none) ∧
    nativeBindSend false none (true, some "boom") (some "w") = (false, some "boom") ∧
    nativeBindSend false none (false, none) (some "w") = (true, some "w") := by
  obtain ⟨h1, h2, h3⟩ :=
    send_adversary_decision_semantics false none none (some "w") (Or.inl rfl)
  exact ⟨h1, h2 "boom", h3⟩

/-- C9: an `UpdatePaths` call for one destination — in particular a failing
one, which discards only that destination's record — leaves every other
destination's blocked set and safe path untouched.  Proved for every call
outcome on a well-formed state, which subsumes the failing ones. -/
theorem updatePaths_frame (s : AllButOneAdversary) (env : ProbeEnv)
    (nend : NativeEndpoint) (paths : List (String × SnetPath)) (ia' : String)
    (hwf : AllButOneWF s) (hia : ia' ≠ nend.ia) :
    mapLookup (s.UpdatePaths env (some nend) paths).1.blockedPathSets ia' =
      mapLookup s.blockedPathSets ia' ∧
    mapLookup (s.UpdatePaths env (some nend) paths).1.safePaths ia' =
      mapLookup s.safePaths ia' := by
  rcases hrec : mapLookup s.blockedPathSets nend.ia with _ | ob
  · rcases hcs : chooseSafePath env paths with ⟨fp, op, oe⟩
    rcases op with _ | p
    · rw [updatePaths_fresh_fail s env nend paths fp none oe hrec hcs (Or.inl rfl)]
      exact ⟨mapLookup_erase_ne _ _ _ hia, rfl⟩
    · rcases oe with _ | e
      · rw [updatePaths_fresh_success s env nend paths fp p hrec hcs]
        exact ⟨mapLookup_insert_ne _ _ _ _ hia, mapLookup_insert_ne _ _ _ _ hia⟩
      · rw [updatePaths_fresh_fail s env nend paths fp (some p) (some e) hrec hcs
          (Or.inr (by simp))]
        exact ⟨mapLookup_erase_ne _ _ _ hia, rfl⟩
  · obtain ⟨osp, hsafe, hnb⟩ := (hwf nend.ia).2 ob hrec
    rcases hm2 : (mergePaths (Fingerprint osp) paths (ob, none)).2 with _ | sp
    · rcases hcs : chooseSafePath env paths with ⟨fp, op, oe⟩
      rcases op with _ | p
      · rw [updatePaths_prior_reprobe_fail s env nend paths ob _ osp fp none oe hrec hsafe
          (Prod.ext rfl hm2) hcs (Or.inl rfl)]
        exact ⟨mapLookup_erase_ne _ _ _ hia, mapLookup_erase_ne _ _ _ hia⟩
      · rcases oe with _ | e
        · rw [updatePaths_prior_reprobe_success s env nend paths ob _ osp fp p hrec hsafe
            (Prod.ext rfl hm2) hcs]
          exact ⟨mapLookup_insert_ne _ _ _ _ hia, mapLookup_insert_ne _ _ _ _ hia⟩
        · rw [updatePaths_prior_reprobe_fail s env nend paths ob _ osp fp (some p) (some e)
            hrec hsafe (Prod.ext rfl hm2) hcs (Or.inr (by simp))]
          exact ⟨mapLookup_erase_ne _ _ _ hia, mapLookup_erase_ne _ _ _ hia⟩
    · rw [updatePaths_prior_continuity s env nend paths ob _ osp sp hrec hsafe
        (Prod.ext rfl hm2)]
      exact ⟨mapLookup_insert_ne _ _ _ _ hia, mapLookup_insert_ne _ _ _ _ hia⟩

/-- Witness for C9: a failing update for destination `"d"` (probe error)
leaves destination `"e"`'s record untouched. -/
theorem updatePaths_frame_witness :
    mapLookup ((AllButOneAdversary.mk [("e", [("B", ⟨"B"⟩)])] [("e", ⟨"A"⟩)]).UpdatePaths
        ⟨some "probe down", none, []⟩ (some ⟨"d", .ok ⟨"A"⟩⟩)
        [("A", ⟨"A"⟩)]).1.blockedPathSets "e" = some [("B", ⟨"B"⟩)] ∧
    mapLookup ((AllButOneAdversary.mk [("e", [("B", ⟨"B"⟩)])] [("e", ⟨"A"⟩)]).UpdatePaths
        ⟨some "probe down", none, []⟩ (some ⟨"d", .ok ⟨"A"⟩⟩)
        [("A", ⟨"A"⟩)]).1.safePaths "e" = some ⟨"A"⟩ := by
  have hwf : AllButOneWF (AllButOneAdversary.mk [("e", [("B", ⟨"B"⟩)])] [("e", ⟨"A"⟩)]) := by
    intro ia
    by_cases h : ia = "e"
    · subst h
      constructor
      · intro hb
        exact absurd hb (by decide)
      · intro b hb
        refine ⟨⟨"A"⟩, by decide, ?_⟩
        have hmain : mapLookup (AllButOneAdversary.mk [("e", [("B", ⟨"B"⟩)])]
            [("e", ⟨"A"⟩)]).blockedPathSets "e" = some [("B", ⟨"B"⟩)] := by decide
        have hb2 : b = [("B", (⟨"B"⟩ : SnetPath))] :=
          (Option.some_inj.mp (hmain.symm.trans hb)).symm
        rw [hb2]
        decide
    · constructor
      · intro hb
        simp [mapLookup, Ne.symm h]
      · intro b hb
        exact absurd hb (by simp [mapLookup, Ne.symm h])
  obtain ⟨h1, h2⟩ := updatePaths_frame (AllButOneAdversary.mk [("e", [("B", ⟨"B"⟩)])]
    [("e", ⟨"A"⟩)]) ⟨some "probe down", none, []⟩ ⟨"d", .ok ⟨"A"⟩⟩ [("A", ⟨"A"⟩)] "e"
    hwf (by decide)
  rw [h1, h2]
  exact ⟨by decide, by decide⟩

/-- C3: when `UpdatePaths` actually probes (fresh destination, or the prior
safe path vanished from the new set) and probing fails (prober error,
`GetStatuses` error, or empty classification), the destination's record is
cleared — blocked set and safe path both gone, not partially updated — the
probing error is what `UpdatePaths` returns, and every subsequent
`getsDropped` for that destination drops until a later successful update. -/
theorem updatePaths_fail_closed (s : AllButOneAdversary) (env : ProbeEnv)
    (nend : NativeEndpoint) (paths : List (String × SnetPath))
    (hwf : AllButOneWF s) (hfail : probeFails env)
    (hprobe : mapLookup s.blockedPathSets nend.ia = none ∨
      (∃ ob osp, mapLookup s.blockedPathSets nend.ia = some ob ∧
        mapLookup s.safePaths nend.ia = some osp ∧
        ∀ kp ∈ paths, kp.1 ≠ Fingerprint osp)) :
    (s.UpdatePaths env (some nend) paths).2 = probeFailErr env ∧
    mapLookup (s.UpdatePaths env (some nend) paths).1.blockedPathSets nend.ia = none ∧
    mapLookup (s.UpdatePaths env (some nend) paths).1.safePaths nend.ia = none ∧
    ∀ nend2 buffer, nend2.ia = nend.ia →
      ((s.UpdatePaths env (some nend) paths).1.getsDropped nend2 buffer).1 = true := by
  have hcs := chooseSafePath_of_fail env paths hfail
  rcases hprobe with hrec | ⟨ob, osp, hrec, hsafe, hnomem⟩
  · rw [updatePaths_fresh_fail s env nend paths "" none (probeFailErr env) hrec hcs
      (Or.inl rfl)]
    refine ⟨rfl, mapLookup_erase_self _ _, (hwf nend.ia).1 hrec, ?_⟩
    intro nend2 buffer hia
    apply allButOne_getsDropped_no_record
    rw [hia]
    exact mapLookup_erase_self _ _
  · have hm2 : (mergePaths (Fingerprint osp) paths (ob, none)).2 = none :=
      mergePaths_snd_of_not_mem (Fingerprint osp) paths (ob, none) hnomem
    rw [updatePaths_prior_reprobe_fail s env nend paths ob _ osp "" none
      (probeFailErr env) hrec hsafe (Prod.ext rfl hm2) hcs (Or.inl rfl)]
    refine ⟨rfl, mapLookup_erase_self _ _, mapLookup_erase_self _ _, ?_⟩
    intro nend2 buffer hia
    apply allButOne_getsDropped_no_record
    rw [hia]
    exact mapLookup_erase_self _ _

/-- Witness for C3: from the fresh state, an update for `"d"` under a failing
probe returns the probe error, leaves no record, and the next `getsDropped`
for `"d"` drops. -/
theorem updatePaths_fail_closed_witness :
    (AllButOneAdversary.Init.UpdatePaths ⟨some "probe down", none, []⟩
        (some ⟨"d", .ok ⟨"A"⟩⟩) [("A", ⟨"A"⟩)]).2 = some "probe down" ∧
    mapLookup (AllButOneAdversary.Init.UpdatePaths ⟨some "probe down", none, []⟩
        (some ⟨"d", .ok ⟨"A"⟩⟩) [("A", ⟨"A"⟩)]).1.blockedPathSets "d" = none ∧
    ((AllButOneAdversary.Init.UpdatePaths ⟨some "probe down", none, []⟩
        (some ⟨"d", .ok ⟨"A"⟩⟩) [("A", ⟨"A"⟩)]).1.getsDropped
        ⟨"d", .ok ⟨"A"⟩⟩ []).1 = true := by
  obtain ⟨h1, h2, h3, h4⟩ := updatePaths_fail_closed AllButOneAdversary.Init
    ⟨some "probe down", none, []⟩ ⟨"d", .ok ⟨"A"⟩⟩ [("A", ⟨"A"⟩)]
    allButOneWF_init (Or.inl (by decide)) (Or.inl (by decide))
  exact ⟨h1, h2, h4 ⟨"d", .ok ⟨"A"⟩⟩ [] rfl⟩

/-- C4: if a destination already has a record and the new path set contains
an entry keyed by the previously recorded safe path's fingerprint, that
entry's path becomes (remains) the destination's safe path, `UpdatePaths`
returns nil, and no probing happens: the outcome is the same under every
probing environment. -/
theorem updatePaths_continuity (s : AllButOneAdversary) (env : ProbeEnv)
    (nend : NativeEndpoint) (paths : List (String × SnetPath))
    (ob : List (String × SnetPath)) (osp p : SnetPath)
    (hnd : NodupKeys paths)
    (hrec : mapLookup s.blockedPathSets nend.ia = some ob)
    (hsafe : mapLookup s.safePaths nend.ia = some osp)
    (hmem : (Fingerprint osp, p) ∈ paths) :
    (s.UpdatePaths env (some nend) paths).2 = none ∧
    mapLookup (s.UpdatePaths env (some nend) paths).1.safePaths nend.ia = some p ∧
    ∀ env2, s.UpdatePaths env2 (some nend) paths = s.UpdatePaths env (some nend) paths := by
  have hm : mergePaths (Fingerprint osp) paths (ob, none) =
      ((mergePaths (Fingerprint osp) paths (ob, none)).1, some p) :=
    Prod.ext rfl (mergePaths_snd_of_mem _ _ _ _ hnd hmem)
  rw [updatePaths_prior_continuity s env nend paths ob _ osp p hrec hsafe hm]
  refine ⟨rfl, mapLookup_insert_self _ _ _, ?_⟩
  intro env2
  rw [updatePaths_prior_continuity s env2 nend paths ob _ osp p hrec hsafe hm]

/-- Witness for C4: destination `"d"` tracks safe path `A`; the new set
`{A, C}` still contains `A`, so `A` stays safe, the call succeeds, and a
failing probe environment gives the same outcome as a succeeding one. -/
theorem updatePaths_continuity_witness :
    ((AllButOneAdversary.mk [("d", [("B", ⟨"B"⟩)])] [("d", ⟨"A"⟩)]).UpdatePaths
        ⟨some "probe down", none, []⟩ (some ⟨"d", .ok ⟨"A"⟩⟩)
        [("A", ⟨"A"⟩), ("C", ⟨"C"⟩)]).2 = none ∧
    mapLookup ((AllButOneAdversary.mk [("d", [("B", ⟨"B"⟩)])] [("d", ⟨"A"⟩)]).UpdatePaths
        ⟨some "probe down", none, []⟩ (some ⟨"d", .ok ⟨"A"⟩⟩)
        [("A", ⟨"A"⟩), ("C", ⟨"C"⟩)]).1.safePaths "d" = some ⟨"A"⟩ := by
  obtain ⟨h1, h2, h3⟩ := updatePaths_continuity
    (AllButOneAdversary.mk [("d", [("B", ⟨"B"⟩)])] [("d", ⟨"A"⟩)])
    ⟨some "probe down", none, []⟩ ⟨"d", .ok ⟨"A"⟩⟩ [("A", ⟨"A"⟩), ("C", ⟨"C"⟩)]
    [("B", ⟨"B"⟩)] ⟨"A"⟩ ⟨"A"⟩ (by decide) (by decide) (by decide)
    (by exact List.mem_cons_self _ _)
  exact ⟨h1, h2⟩

/-- C2: after a successful `UpdatePaths` (nil error, record kept) for a
destination, on a well-formed state and a fingerprint-keyed path set with at
least two paths, exactly one path of that set — the recorded safe path —
has its fingerprint absent from the destination's blocked set, and every
other path of the set is in the blocked set. -/
theorem updatePaths_safety_invariant (s : AllButOneAdversary) (env : ProbeEnv)
    (nend : NativeEndpoint) (paths : List (String × SnetPath))
    (blocked' : List (String × SnetPath))
    (hwf : AllButOneWF s) (hnd : NodupKeys paths) (hfk : FingerprintKeyed paths)
    (hlen : 2 ≤ paths.length)
    (hok : (s.UpdatePaths env (some nend) paths).2 = none)
    (hrec' : mapLookup (s.UpdatePaths env (some nend) paths).1.blockedPathSets nend.ia =
      some blocked') :
    ∃ kp, kp ∈ paths ∧
      mapLookup (s.UpdatePaths env (some nend) paths).1.safePaths nend.ia = some kp.2 ∧
      mapLookup blocked' (Fingerprint kp.2) = none ∧
      ∀ kq ∈ paths, Fingerprint kq.2 ≠ Fingerprint kp.2 →
        (mapLookup blocked' (Fingerprint kq.2)).isSome = true := by
  rcases hrec : mapLookup s.blockedPathSets nend.ia with _ | ob
  · rcases hcs : chooseSafePath env paths with ⟨fp, op, oe⟩
    rcases op with _ | p
    · rw [updatePaths_fresh_fail s env nend paths fp none oe hrec hcs (Or.inl rfl)] at hrec'
      rw [mapLookup_erase_self] at hrec'
      cases hrec'
    · rcases oe with _ | e
      · rw [updatePaths_fresh_success s env nend paths fp p hrec hcs] at hrec' ⊢
        rw [mapLookup_insert_self] at hrec'
        have hb : blocked' = mapErase (copyPaths paths) fp := (Option.some_inj.mp hrec').symm
        have hmem := chooseSafePath_mem env paths fp p hcs
        have hfp : fp = Fingerprint p := hfk _ hmem
        refine ⟨(fp, p), hmem, mapLookup_insert_self _ _ _, ?_, ?_⟩
        · rw [hb, ← hfp]
          exact mapLookup_erase_self _ _
        · intro kq hkq hne
          obtain ⟨k1, k2⟩ := kq
          have hk1 : k1 = Fingerprint k2 := hfk _ hkq
          rw [hb, ← hk1, mapLookup_erase_ne _ _ _ (by rw [hk1, hfp]; exact hne),
            copyPaths_lookup_mem paths k1 k2 hnd hkq]
          rfl
      · rw [updatePaths_fresh_fail s env nend paths fp (some p) (some e) hrec hcs
          (Or.inr (by simp))] at hrec'
        rw [mapLookup_erase_self] at hrec'
        cases hrec'
  · obtain ⟨osp, hsafe, hnb⟩ := (hwf nend.ia).2 ob hrec
    rcases hm2 : (mergePaths (Fingerprint osp) paths (ob, none)).2 with _ | sp
    · rcases hcs : chooseSafePath env paths with ⟨fp, op, oe⟩
      have hknosp : ∀ kp ∈ paths, kp.1 ≠ Fingerprint osp := by
        intro kp hkp heq
        obtain ⟨k1, k2⟩ := kp
        simp only at heq
        subst heq
        have hx := mergePaths_snd_of_mem (Fingerprint osp) paths (ob, none) k2 hnd hkp
        rw [hm2] at hx
        cases hx
      rcases op with _ | p
      · rw [updatePaths_prior_reprobe_fail s env nend paths ob _ osp fp none oe hrec hsafe
          (Prod.ext rfl hm2) hcs (Or.inl rfl)] at hrec'
        rw [mapLookup_erase_self] at hrec'
        cases hrec'
      · rcases oe with _ | e
        · rw [updatePaths_prior_reprobe_success s env nend paths ob _ osp fp p hrec hsafe
            (Prod.ext rfl hm2) hcs] at hrec' ⊢
          rw [mapLookup_insert_self] at hrec'
          have hb : blocked' =
              mapErase (mergePaths (Fingerprint osp) paths (ob, none)).1 fp :=
            (Option.some_inj.mp hrec').symm
          have hmem := chooseSafePath_mem env paths fp p hcs
          have hfp : fp = Fingerprint p := hfk _ hmem
          refine ⟨(fp, p), hmem, mapLookup_insert_self _ _ _, ?_, ?_⟩
          · rw [hb, ← hfp]
            exact mapLookup_erase_self _ _
          · intro kq hkq hne
            obtain ⟨k1, k2⟩ := kq
            have hk1 : k1 = Fingerprint k2 := hfk _ hkq
            rw [hb, ← hk1, mapLookup_erase_ne _ _ _ (by rw [hk1, hfp]; exact hne),
              mergePaths_fst_lookup_mem (Fingerprint osp) paths (ob, none) k1 k2
                (hknosp _ hkq) hnd hkq]
            rfl
        · rw [updatePaths_prior_reprobe_fail s env nend paths ob _ osp fp (some p) (some e)
            hrec hsafe (Prod.ext rfl hm2) hcs (Or.inr (by simp))] at hrec'
          rw [mapLookup_erase_self] at hrec'
          cases hrec'
    · rw [updatePaths_prior_continuity s env nend paths ob _ osp sp hrec hsafe
        (Prod.ext rfl hm2)] at hrec' ⊢
      rw [mapLookup_insert_self] at hrec'
      have hb : blocked' = (mergePaths (Fingerprint osp) paths (ob, none)).1 :=
        (Option.some_inj.mp hrec').symm
      have hmem : (Fingerprint osp, sp) ∈ paths := by
        rcases mergePaths_snd_mem (Fingerprint osp) paths (ob, none) sp hm2 with h2 | h2
        · cases h2
        · exact h2
      have hfsp : Fingerprint osp = Fingerprint sp := hfk _ hmem
      refine ⟨(Fingerprint osp, sp), hmem, mapLookup_insert_self _ _ _, ?_, ?_⟩
      · rw [hb]
        simp only
        rw [← hfsp, mergePaths_fst_lookup_safeFp]
        exact hnb
      · intro kq hkq hne
        obtain ⟨k1, k2⟩ := kq
        have hk1 : k1 = Fingerprint k2 := hfk _ hkq
        have hk1ne : k1 ≠ Fingerprint osp := by
          rw [hk1, hfsp]
          exact hne
        rw [hb, ← hk1,
          mergePaths_fst_lookup_mem (Fingerprint osp) paths (ob, none) k1 k2 hk1ne hnd hkq]
        rfl

/-- Witness for C2: from the fresh state, with paths `{A, B}` and `B` probed
alive, the update keeps exactly `B` unblocked and blocks `A`. -/
theorem updatePaths_safety_invariant_witness :
    mapLookup (AllButOneAdversary.Init.UpdatePaths ⟨none, none, [("B", .alive)]⟩
        (some ⟨"d", .ok ⟨"A"⟩⟩)
        [("A", ⟨"A"⟩), ("B", ⟨"B"⟩)]).1.blockedPathSets "d" = some [("A", ⟨"A"⟩)] ∧
    ∃ kp, kp ∈ [(("A" : String), (⟨"A"⟩ : SnetPath)), ("B", ⟨"B"⟩)] ∧
      mapLookup (AllButOneAdversary.Init.UpdatePaths ⟨none, none, [("B", .alive)]⟩
        (some ⟨"d", .ok ⟨"A"⟩⟩) [("A", ⟨"A"⟩), ("B", ⟨"B"⟩)]).1.safePaths "d" =
          some kp.2 ∧
      mapLookup [(("A" : String), (⟨"A"⟩ : SnetPath))] (Fingerprint kp.2) = none ∧
      ∀ kq ∈ [(("A" : String), (⟨"A"⟩ : SnetPath)), ("B", ⟨"B"⟩)],
        Fingerprint kq.2 ≠ Fingerprint kp.2 →
          (mapLookup [(("A" : String), (⟨"A"⟩ : SnetPath))] (Fingerprint kq.2)).isSome =
            true := by
  constructor
  · decide
  · exact updatePaths_safety_invariant AllButOneAdversary.Init
      ⟨none, none, [("B", .alive)]⟩ ⟨"d", .ok ⟨"A"⟩⟩ [("A", ⟨"A"⟩), ("B", ⟨"B"⟩)]
      [("A", ⟨"A"⟩)] allButOneWF_init (by decide) (by decide) (by decide)
      (by decide) (by decide)

/-- C6: `chooseSafePath` propagates probing errors instead of picking a path
(`getProber` failure or `GetStatuses` failure); when probing succeeds with a
nonempty classification it returns a path of the set classified alive if one
exists, otherwise one classified timeout if one exists, otherwise — for a
nonempty set — some (arbitrary) path of the set, always with a nil error. -/
theorem chooseSafePath_preference (env : ProbeEnv) (ps : List (String × SnetPath)) :
    (∀ e, env.proberErr = some e → chooseSafePath env ps = ("", none, some e)) ∧
    (∀ e, env.proberErr = none → env.statusErr = some e →
      chooseSafePath env ps = ("", none, some e)) ∧
    (env.proberErr = none → env.statusErr = none → env.statusMap ≠ [] →
      ((∃ kp, kp ∈ ps ∧ statusOf env kp.2 = .alive) →
        ∃ kp, kp ∈ ps ∧ statusOf env kp.2 = .alive ∧
          chooseSafePath env ps = (kp.1, some kp.2, none)) ∧
      ((∀ kp ∈ ps, statusOf env kp.2 ≠ .alive) →
        (∃ kp, kp ∈ ps ∧ statusOf env kp.2 = .timeout) →
        ∃ kp, kp ∈ ps ∧ statusOf env kp.2 = .timeout ∧
          chooseSafePath env ps = (kp.1, some kp.2, none)) ∧
      ((∀ kp ∈ ps, statusOf env kp.2 ≠ .alive ∧ statusOf env kp.2 ≠ .timeout) →
        ps ≠ [] →
        ∃ kp, kp ∈ ps ∧ chooseSafePath env ps = (kp.1, some kp.2, none))) := by
  refine ⟨?_, ?_, ?_⟩
  · intro e he
    simp [chooseSafePath, he]
  · intro e h0 he
    simp [chooseSafePath, h0, he]
  · intro h0 hse hsm
    have hne : ¬((env.statusErr.isSome || env.statusMap.isEmpty) = true) := by
      simp [hse, List.isEmpty_iff, hsm]
    have hred : chooseSafePath env ps =
        match (scanPaths env ps).alivePath with
        | some ap => ((scanPaths env ps).aliveFp, some ap, none)
        | none =>
          match (scanPaths env ps).timeoutPath with
          | some tp => ((scanPaths env ps).timeoutFp, some tp, none)
          | none => ((scanPaths env ps).lastFp, (scanPaths env ps).lastPath, none) := by
      simp only [chooseSafePath, h0, if_neg hne]
    refine ⟨?_, ?_, ?_⟩
    · intro hex
      rcases scanPaths_alive_spec env ps with ⟨h1, h2, h3⟩ | ⟨q, hq, hs, h1, h2⟩
      · obtain ⟨kp, hkp, hal⟩ := hex
        exact absurd hal (h3 kp hkp)
      · refine ⟨q, hq, hs, ?_⟩
        rw [hred, h2, h1]
    · intro hnoal hex
      have ha : (scanPaths env ps).alivePath = none := by
        rcases scanPaths_alive_spec env ps with ⟨h1, h2, h3⟩ | ⟨q, hq, hs, h1, h2⟩
        · exact h2
        · exact absurd hs (hnoal q hq)
      rcases scanPaths_timeout_spec env ps with ⟨h1, h2, h3⟩ | ⟨q, hq, hs, h1, h2⟩
      · obtain ⟨kp, hkp, htl⟩ := hex
        exact absurd htl (h3 kp hkp)
      · refine ⟨q, hq, hs, ?_⟩
        rw [hred, ha, h2, h1]
    · intro hnone hps
      have ha : (scanPaths env ps).alivePath = none := by
        rcases scanPaths_alive_spec env ps with ⟨h1, h2, h3⟩ | ⟨q, hq, hs, h1, h2⟩
        · exact h2
        · exact absurd hs (hnone q hq).1
      have ht : (scanPaths env ps).timeoutPath = none := by
        rcases scanPaths_timeout_spec env ps with ⟨h1, h2, h3⟩ | ⟨q, hq, hs, h1, h2⟩
        · exact h2
        · exact absurd hs (hnone q hq).2
      rcases scanPaths_last_spec env ps with ⟨h0', h1, h2⟩ | ⟨q, hq, h1, h2⟩
      · exact absurd h0' hps
      · refine ⟨q, hq, ?_⟩
        rw [hred, ha, ht, h1, h2]

/-- Witness for C6: with `A` classified timeout and `B` alive, the alive path
`B` is chosen; with both merely timeout, a timeout path is chosen. -/
theorem chooseSafePath_preference_witness :
    chooseSafePath ⟨none, none, [("A", .timeout), ("B", .alive)]⟩
        [("A", ⟨"A"⟩), ("B", ⟨"B"⟩)] = ("B", some ⟨"B"⟩, none) ∧
    chooseSafePath ⟨some "probe down", none, []⟩ [("A", ⟨"A"⟩)] =
      ("", none, some "probe down") := by
  constructor
  · obtain ⟨q, hq, hs, heq⟩ := ((chooseSafePath_preference
      ⟨none, none, [("A", .timeout), ("B", .alive)]⟩
      [("A", ⟨"A"⟩), ("B", ⟨"B"⟩)]).2.2 rfl rfl (by decide)).1
      ⟨("B", ⟨"B"⟩), by decide, by decide⟩
    rw [heq]
    rcases List.mem_cons.mp hq with h | h
    · exact absurd (h ▸ hs) (by decide)
    · rcases List.mem_cons.mp h with h2 | h2
      · rw [h2]
      · cases h2
  · exact (chooseSafePath_preference ⟨some "probe down", none, []⟩
      [("A", ⟨"A"⟩)]).1 "probe down" rfl

/-- C7: for an `AllButOneLossyAdversary` started with a fresh `hadLoss` flag,
in any sequence of `getsDropped` calls the first call that the wrapped
`AllButOneAdversary` would let through is converted to a drop (keeping the
delegate's error), and every call coming after some earlier allowed call
returns exactly the wrapped adversary's result. -/
theorem allButOneLossy_first_allowed_dropped (inner : AllButOneAdversary)
    (cs : List (NativeEndpoint × List Nat)) (j : Nat) (hj : j < cs.length) :
    ((inner.decision (cs.get ⟨j, hj⟩)).1 = false →
      (∀ k, ∀ hk : k < cs.length, k < j → (inner.decision (cs.get ⟨k, hk⟩)).1 = true) →
      (lossyRun ⟨inner, false⟩ cs).1[j]? =
        some (true, (inner.decision (cs.get ⟨j, hj⟩)).2)) ∧
    ((∃ k, ∃ hk : k < cs.length, k < j ∧ (inner.decision (cs.get ⟨k, hk⟩)).1 = false) →
      (lossyRun ⟨inner, false⟩ cs).1[j]? = some (inner.decision (cs.get ⟨j, hj⟩))) := by
  induction cs generalizing j with
  | nil => exact absurd hj (Nat.not_lt_zero j)
  | cons c cs ih =>
    by_cases hc : (inner.decision c).1 = true
    · rw [lossyRun_cons_drop inner cs c hc]
      cases j with
      | zero =>
        constructor
        · intro hfalse _
          have h0 : (inner.decision c).1 = false := hfalse
          cases h0.symm.trans hc
        · rintro ⟨k, hk, hklt, -⟩
          exact absurd hklt (Nat.not_lt_zero k)
      | succ j' =>
        have hj' : j' < cs.length := Nat.lt_of_succ_lt_succ hj
        constructor
        · intro hfalse hall
          rw [List.getElem?_cons_succ]
          exact (ih j' hj').1 hfalse
            (fun k hk hlt => hall (k + 1) (Nat.succ_lt_succ hk) (Nat.succ_lt_succ hlt))
        · rintro ⟨k, hk, hklt, hkf⟩
          rw [List.getElem?_cons_succ]
          cases k with
          | zero =>
            have h0 : (inner.decision c).1 = false := hkf
            cases h0.symm.trans hc
          | succ k' =>
            exact (ih j' hj').2 ⟨k', Nat.lt_of_succ_lt_succ hk,
              Nat.lt_of_succ_lt_succ hklt, hkf⟩
    · have hcf : (inner.decision c).1 = false := by
        revert hc
        cases (inner.decision c).1 <;> simp
      rw [lossyRun_cons_allow inner cs c hcf]
      cases j with
      | zero =>
        constructor
        · intro _ _
          rw [List.getElem?_cons_zero]
          rfl
        · rintro ⟨k, hk, hklt, -⟩
          exact absurd hklt (Nat.not_lt_zero k)
      | succ j' =>
        have hj' : j' < cs.length := Nat.lt_of_succ_lt_succ hj
        constructor
        · intro hfalse hall
          have h0 : (inner.decision c).1 = true :=
            hall 0 (Nat.succ_pos cs.length) (Nat.succ_pos j')
          cases hcf.symm.trans h0
        · intro _
          rw [List.getElem?_cons_succ, List.getElem?_map, List.getElem?_eq_getElem hj']
          rfl

/-- Witness for C7: the wrapped adversary would allow both calls of a
two-call sequence; the first is converted to a drop, the second passes
through with the wrapped result. -/
theorem allButOneLossy_first_allowed_dropped_witness :
    (lossyRun ⟨AllButOneAdversary.mk [("d", [])] [("d", ⟨"A"⟩)], false⟩
        [(⟨"d", .ok ⟨"A"⟩⟩, []), (⟨"d", .ok ⟨"A"⟩⟩, [])]).1[0]? =
      some (true, none) ∧
    (lossyRun ⟨AllButOneAdversary.mk [("d", [])] [("d", ⟨"A"⟩)], false⟩
        [(⟨"d", .ok ⟨"A"⟩⟩, []), (⟨"d", .ok ⟨"A"⟩⟩, [])]).1[1]? =
      some (false, none) := by
  constructor
  · have h := (allButOneLossy_first_allowed_dropped
      (AllButOneAdversary.mk [("d", [])] [("d", ⟨"A"⟩)])
      [(⟨"d", .ok ⟨"A"⟩⟩, []), (⟨"d", .ok ⟨"A"⟩⟩, [])] 0 (by decide)).1
      (by decide) (fun k hk hlt => absurd hlt (Nat.not_lt_zero k))
    rw [h]
    decide
  · have h := (allButOneLossy_first_allowed_dropped
      (AllButOneAdversary.mk [("d", [])] [("d", ⟨"A"⟩)])
      [(⟨"d", .ok ⟨"A"⟩⟩, []), (⟨"d", .ok ⟨"A"⟩⟩, [])] 1 (by decide)).2
      ⟨0, by decide, by decide, by decide⟩
    rw [h]
    decide

end WgScion
